/-
Verification of the SISPPEO band-extraction, resolution-normalisation and
mask-composition engine (inrae/SISPPEO).

Shallow embedding of the relevant source functions:

* sisppeo/utils/readers.py   : resample_band_array, get_ij_bbox
* sisppeo/readers/C2RCC.py   : C2RCCReader._extract_ROI
* sisppeo/readers/S2_ESA.py  : S2ESAReader.__init__ (resolution check),
                               S2ESAReader._compute_x_coords / _compute_y_coords
* sisppeo/readers/S2_THEIA.py: S2THEIAReader.__init__ (resolution check)
* sisppeo/builders.py        : ProductBuilder._set_resolution
* sisppeo/products/l3.py     : mask_product

Machine floats are embedded as rationals; numpy arrays over a clipped region
are embedded as functions from an index type; xarray datasets are abstracted
to their coordinate lists and a coordinate-indexed value function (NaN is
Option.none); Python exceptions become Except values.
-/
import Mathlib

namespace Sisppeo

/-- Error taxonomy of sisppeo/utils/exceptions.py. -/
inductive SisppeoError where
  | geometryError (msg : String)
  | productError (msg : String)
  | inputError (msg : String)
  deriving DecidableEq, Repr

/-- PIL resampling filters used by sisppeo/utils/readers.py
(Image.LANCZOS and Image.NEAREST). -/
inductive PILFilter where
  | lanczos
  | nearest
  deriving DecidableEq, Repr

/-- Filter choice of resample_band_array (utils/readers.py lines 97-98) and
resize_and_resample_band_array (lines 131-132):
"Image.LANCZOS if scale_factor < 1 else Image.NEAREST"
with scale_factor = in_res / out_res. -/
def resamplingFilter (inRes outRes : ℚ) : PILFilter :=
  if inRes / outRes < 1 then PILFilter.lanczos else PILFilter.nearest

/-- Output dimension of resample_band_array (utils/readers.py lines 105-110):
the new size along one axis is int(dim * scale_factor), Python int()
truncation of the nonnegative product, i.e. the floor. -/
def pilDim (d inRes outRes : ℕ) : ℕ :=
  (⌊(d : ℚ) * ((inRes : ℚ) / (outRes : ℚ))⌋).toNat

/-- Shape (height, width) of the array returned by resample_band_array:
im.resize((int(im.width * scale), int(im.height * scale))). -/
def resampleShape (h w inRes outRes : ℕ) : ℕ × ℕ :=
  (pilDim h inRes outRes, pilDim w inRes outRes)

lemma pilDim_eq_div (d inRes outRes : ℕ) :
    pilDim d inRes outRes = d * inRes / outRes := by
  unfold pilDim
  have h : (d : ℚ) * ((inRes : ℚ) / (outRes : ℚ))
      = ((d * inRes : ℕ) : ℚ) / ((outRes : ℕ) : ℚ) := by
    push_cast
    ring
  rw [h, Int.floor_toNat, Nat.floor_div_nat, Nat.floor_natCast]

/-- C4: the smoothing (Lanczos) filter is selected exactly when
scale = R_in / R_out < 1, and nearest-neighbor exactly when scale >= 1
(utils/readers.py lines 97-98 and 131-132). -/
theorem resampling_filter_selection (inRes outRes : ℚ) :
    (inRes / outRes < 1 → resamplingFilter inRes outRes = PILFilter.lanczos) ∧
    (1 ≤ inRes / outRes → resamplingFilter inRes outRes = PILFilter.nearest) := by
  constructor
  · intro h
    simp [resamplingFilter, h]
  · intro h
    simp [resamplingFilter, not_lt.mpr h]

/-- Witness for C4: downsampling 10m -> 20m picks Lanczos,
upsampling 20m -> 10m picks nearest. -/
theorem resampling_filter_selection_witness :
    resamplingFilter 10 20 = PILFilter.lanczos ∧
    resamplingFilter 20 10 = PILFilter.nearest :=
  ⟨(resampling_filter_selection 10 20).1 (by norm_num),
   (resampling_filter_selection 20 10).2 (by norm_num)⟩

/-- C5 counterexample: for a 3x3 array with R_in = 3 and R_out = 5
(scale = 0.6), the code produces dimension int(3 * 0.6) = 1, not
round(1.8) = 2 as the claim states. -/
theorem resample_dims_not_round :
    pilDim 3 3 5 ≠ (round ((3 : ℚ) * ((3 : ℚ) / (5 : ℚ)))).toNat := by
  rw [pilDim_eq_div]
  have h : round ((3 : ℚ) * ((3 : ℚ) / (5 : ℚ))) = 2 := by
    norm_num [round_eq]
  rw [h]
  decide

/-- C5 amended: the output dimensions of resample_band_array are the
truncation (floor) of dim * scale along each axis, i.e. integer division
dim * R_in / R_out; not rounding to the nearest integer. -/
theorem resample_dims_truncate (h w inRes outRes : ℕ) :
    resampleShape h w inRes outRes = (h * inRes / outRes, w * inRes / outRes) := by
  unfold resampleShape
  rw [pilDim_eq_div, pilDim_eq_div]

/-- C6 counterexample: a 3x3 array resampled by scale 3/5 and back by
scale 5/3 ends up 1x1, not 3x3. -/
theorem resample_roundtrip_shape_fails :
    resampleShape (resampleShape 3 3 3 5).1 (resampleShape 3 3 3 5).2 5 3
      ≠ (3, 3) := by
  simp only [resampleShape, pilDim_eq_div]
  decide

/-- C6 amended: the round-trip shape law holds whenever the forward scaling
is exact, i.e. R_out divides h * R_in and w * R_in; in general the code
truncates and the original shape is not recovered. -/
theorem resample_roundtrip_shape_exact (h w inRes outRes : ℕ)
    (hin : 0 < inRes) (_hout : 0 < outRes)
    (hh : outRes ∣ h * inRes) (hw : outRes ∣ w * inRes) :
    resampleShape (pilDim h inRes outRes) (pilDim w inRes outRes) outRes inRes
      = (h, w) := by
  unfold resampleShape
  rw [pilDim_eq_div, pilDim_eq_div, pilDim_eq_div, pilDim_eq_div,
    Nat.div_mul_cancel hh, Nat.div_mul_cancel hw,
    Nat.mul_div_cancel h hin, Nat.mul_div_cancel w hin]

/-- Witness for C6 amended: a 4x6 array at 20m resampled to 10m (8x12) and
back to 20m recovers the 4x6 shape. -/
theorem resample_roundtrip_shape_exact_witness :
    resampleShape (pilDim 4 20 10) (pilDim 6 20 10) 10 20 = (4, 6) :=
  resample_roundtrip_shape_exact 4 6 20 10 (by decide) (by decide)
    (by decide) (by decide)

/-- Polarity tag of a mask layer, the lst_mask_type argument of mask_product
(products/l3.py): the string values accepted by the code, compared after
.upper(), are only the tags IN (inclusive) and OUT (exclusive). -/
inductive MaskType where
  | IN
  | OUT
  deriving DecidableEq, Repr

/-- Sum of the clipped arrays of the IN-tagged layers (products/l3.py
lines 233-236): np.sum over elementwise arrays becomes a pointwise sum; an
empty selection sums to the scalar 0, as np.sum([], axis=0) does. -/
def maskInSum {ι : Type} (layers : List ((ι → ℚ) × MaskType)) (p : ι) : ℚ :=
  ((layers.filter (fun l => l.2 == MaskType.IN)).map (fun l => l.1 p)).sum

/-- Sum of the clipped arrays of the OUT-tagged layers (products/l3.py
lines 237-240). -/
def maskOutSum {ι : Type} (layers : List ((ι → ℚ) × MaskType)) (p : ι) : ℚ :=
  ((layers.filter (fun l => l.2 == MaskType.OUT)).map (fun l => l.1 p)).sum

/-- Final keep/discard field of mask_product (products/l3.py lines 241-247):
if not idx_in: mask = np.where(mask_out == 0, True, False)
elif not idx_out: mask = np.where(mask_in > 0, True, False)
else: mask = np.where((mask_in > 0) & (mask_out == 0), True, False). -/
def keepField {ι : Type} (layers : List ((ι → ℚ) × MaskType)) (p : ι) : Bool :=
  if (layers.filter (fun l => l.2 == MaskType.IN)).isEmpty then
    decide (maskOutSum layers p = 0)
  else if (layers.filter (fun l => l.2 == MaskType.OUT)).isEmpty then
    decide (0 < maskInSum layers p)
  else
    decide (0 < maskInSum layers p) && decide (maskOutSum layers p = 0)

/-- Application step of mask_product (products/l3.py lines 251-253):
np.where(mask, values, np.nan); NaN is embedded as Option.none. -/
def applyKeep {ι : Type} (keep : ι → Bool) (vals : ι → Option ℚ) :
    ι → Option ℚ :=
  fun p => if keep p then vals p else none

lemma filter_in_of_all_in {ι : Type} (layers : List ((ι → ℚ) × MaskType))
    (h : ∀ l ∈ layers, l.2 = MaskType.IN) :
    layers.filter (fun l => l.2 == MaskType.IN) = layers :=
  List.filter_eq_self.mpr (fun l hl => by rw [h l hl]; rfl)

lemma filter_out_of_all_in {ι : Type} (layers : List ((ι → ℚ) × MaskType))
    (h : ∀ l ∈ layers, l.2 = MaskType.IN) :
    layers.filter (fun l => l.2 == MaskType.OUT) = [] :=
  List.filter_eq_nil_iff.mpr (fun l hl => by rw [h l hl]; decide)

lemma filter_out_of_all_out {ι : Type} (layers : List ((ι → ℚ) × MaskType))
    (h : ∀ l ∈ layers, l.2 = MaskType.OUT) :
    layers.filter (fun l => l.2 == MaskType.OUT) = layers :=
  List.filter_eq_self.mpr (fun l hl => by rw [h l hl]; rfl)

lemma filter_in_of_all_out {ι : Type} (layers : List ((ι → ℚ) × MaskType))
    (h : ∀ l ∈ layers, l.2 = MaskType.OUT) :
    layers.filter (fun l => l.2 == MaskType.IN) = [] :=
  List.filter_eq_nil_iff.mpr (fun l hl => by rw [h l hl]; decide)

/-- C1: case analysis of the keep field of mask_product over the clipped
arrays: with only IN layers, keep = (include sum > 0); with only OUT layers,
keep = (exclude sum == 0); with both polarities present,
keep = (include sum > 0) AND (exclude sum == 0). -/
theorem mask_algebra_keep_cases {ι : Type}
    (layers : List ((ι → ℚ) × MaskType)) (p : ι) :
    (layers ≠ [] → (∀ l ∈ layers, l.2 = MaskType.IN) →
      keepField layers p = decide (0 < maskInSum layers p)) ∧
    (layers ≠ [] → (∀ l ∈ layers, l.2 = MaskType.OUT) →
      keepField layers p = decide (maskOutSum layers p = 0)) ∧
    ((∃ l ∈ layers, l.2 = MaskType.IN) → (∃ l ∈ layers, l.2 = MaskType.OUT) →
      keepField layers p =
        (decide (0 < maskInSum layers p) && decide (maskOutSum layers p = 0))) := by
  refine ⟨fun hne hin => ?_, fun hne hout => ?_, fun hin hout => ?_⟩
  · rw [keepField, if_neg, if_pos]
    · rw [filter_out_of_all_in layers hin]
      rfl
    · rw [filter_in_of_all_in layers hin]
      simpa [List.isEmpty_iff] using hne
  · rw [keepField, if_pos]
    rw [filter_in_of_all_out layers hout]
    rfl
  · obtain ⟨li, hli, hi⟩ := hin
    obtain ⟨lo, hlo, ho⟩ := hout
    rw [keepField, if_neg, if_neg]
    · simp only [List.isEmpty_iff, List.filter_eq_nil_iff]
      push_neg
      exact ⟨lo, hlo, by rw [ho]; decide⟩
    · simp only [List.isEmpty_iff, List.filter_eq_nil_iff]
      push_neg
      exact ⟨li, hli, by rw [hi]; decide⟩

/-- Spec scenario used as witness for C1: two Include masks with values
[[1,0],[0,1]] and [[0,1],[0,0]] on a 2x2 grid. -/
def wMask1 : Fin 2 × Fin 2 → ℚ :=
  fun p => if p = (0, 0) ∨ p = (1, 1) then 1 else 0

/-- Second 2x2 Include mask of the spec scenario. -/
def wMask2 : Fin 2 × Fin 2 → ℚ :=
  fun p => if p = (0, 1) then 1 else 0

/-- Witness for C1: with the two Include masks of the spec scenario, the keep
field at pixel (1,0) equals (include sum > 0), and evaluating both sides
gives false there (sum [[1,1],[0,1]] is 0 at (1,0)). -/
theorem mask_algebra_keep_cases_witness :
    keepField [(wMask1, MaskType.IN), (wMask2, MaskType.IN)] ((1 : Fin 2), (0 : Fin 2))
      = decide (0 < maskInSum [(wMask1, MaskType.IN), (wMask2, MaskType.IN)]
          ((1 : Fin 2), (0 : Fin 2))) ∧
    keepField [(wMask1, MaskType.IN), (wMask2, MaskType.IN)] ((1 : Fin 2), (0 : Fin 2))
      = false := by
  refine ⟨(mask_algebra_keep_cases _ _).1 (by simp) ?_,
    by simp [keepField, maskInSum, maskOutSum, wMask1, wMask2, List.filter]⟩
  intro l hl
  fin_cases hl <;> rfl

/-- Abstraction of an L3AlgoProduct (products/l3.py): the coordinate arrays
x and y of its dataset, and the values of its single algo variable indexed by
coordinate (x, y); NaN is Option.none. Provenance attributes are not
modelled (no claim refers to them). -/
structure AlgoProduct where
  xs : List ℚ
  ys : List ℚ
  vals : ℚ × ℚ → Option ℚ

/-- Abstraction of an L3MaskProduct (products/l3.py): coordinate arrays and
the single boolean/categorical mask variable, indexed by coordinate. -/
structure MaskProduct where
  xs : List ℚ
  ys : List ℚ
  mvals : ℚ × ℚ → ℚ

/-- Python min() over a list of values, as used on coordinate arrays
(x.values.min()); the empty case cannot arise in mask_product because the
target's value is always appended. -/
def pyMin : List ℚ → ℚ
  | [] => 0
  | x :: xs => xs.foldl min x

/-- Python max() over a list of values. -/
def pyMax : List ℚ → ℚ
  | [] => 0
  | x :: xs => xs.foldl max x

/-- Shared bounding box of mask_product (products/l3.py lines 220-228):
x_min = max([mask.x.min() for mask in masks] + [algo.x.min()]), and the
three analogous combinations. Fields are ordered (xmin, xmax, ymin, ymax). -/
structure BBox where
  xmin : ℚ
  xmax : ℚ
  ymin : ℚ
  ymax : ℚ
  deriving DecidableEq, Repr

/-- Computes the shared bounding box exactly as mask_product does. -/
def sharedBBox (algo : AlgoProduct) (masks : List MaskProduct) : BBox where
  xmin := pyMax (masks.map (fun m => pyMin m.xs) ++ [pyMin algo.xs])
  xmax := pyMin (masks.map (fun m => pyMax m.xs) ++ [pyMax algo.xs])
  ymin := pyMax (masks.map (fun m => pyMin m.ys) ++ [pyMin algo.ys])
  ymax := pyMin (masks.map (fun m => pyMax m.ys) ++ [pyMax algo.ys])

lemma foldl_max_le {l : List ℚ} {a b : ℚ} (ha : a ≤ b)
    (hl : ∀ u ∈ l, u ≤ b) : l.foldl max a ≤ b := by
  induction l generalizing a with
  | nil => exact ha
  | cons x xs ih =>
    exact ih (max_le ha (hl x (List.mem_cons_self x xs)))
      (fun u hu => hl u (List.mem_cons_of_mem x hu))

lemma le_foldl_max (l : List ℚ) (a : ℚ) : a ≤ l.foldl max a := by
  induction l generalizing a with
  | nil => exact le_refl a
  | cons x xs ih => exact le_trans (le_max_left a x) (ih (max a x))

lemma mem_le_foldl_max {l : List ℚ} {a : ℚ} :
    ∀ u ∈ l, u ≤ l.foldl max a := by
  induction l generalizing a with
  | nil => intro u hu; cases hu
  | cons x xs ih =>
    intro u hu
    rcases List.mem_cons.mp hu with h | h
    · subst h
      exact le_trans (le_max_right a u) (le_foldl_max xs (max a u))
    · exact ih u h

lemma foldl_max_mem (l : List ℚ) (a : ℚ) :
    l.foldl max a = a ∨ l.foldl max a ∈ l := by
  induction l generalizing a with
  | nil => exact Or.inl rfl
  | cons x xs ih =>
    rw [List.foldl_cons]
    rcases ih (max a x) with h | h
    · rw [h]
      rcases max_cases a x with ⟨he, _⟩ | ⟨he, _⟩
      · exact Or.inl he
      · right
        rw [he]
        exact List.mem_cons_self x xs
    · exact Or.inr (List.mem_cons_of_mem x h)

lemma foldl_min_ge {l : List ℚ} {a b : ℚ} (ha : b ≤ a)
    (hl : ∀ u ∈ l, b ≤ u) : b ≤ l.foldl min a := by
  induction l generalizing a with
  | nil => exact ha
  | cons x xs ih =>
    exact ih (le_min ha (hl x (List.mem_cons_self x xs)))
      (fun u hu => hl u (List.mem_cons_of_mem x hu))

lemma foldl_min_le_init (l : List ℚ) (a : ℚ) : l.foldl min a ≤ a := by
  induction l generalizing a with
  | nil => exact le_refl a
  | cons x xs ih => exact le_trans (ih (min a x)) (min_le_left a x)

lemma foldl_min_le_mem {l : List ℚ} {a : ℚ} :
    ∀ u ∈ l, l.foldl min a ≤ u := by
  induction l generalizing a with
  | nil => intro u hu; cases hu
  | cons x xs ih =>
    intro u hu
    rcases List.mem_cons.mp hu with h | h
    · subst h
      exact le_trans (foldl_min_le_init xs (min a u)) (min_le_right a u)
    · exact ih u h

lemma foldl_min_mem (l : List ℚ) (a : ℚ) :
    l.foldl min a = a ∨ l.foldl min a ∈ l := by
  induction l generalizing a with
  | nil => exact Or.inl rfl
  | cons x xs ih =>
    rw [List.foldl_cons]
    rcases ih (min a x) with h | h
    · rw [h]
      rcases min_cases a x with ⟨he, _⟩ | ⟨he, _⟩
      · exact Or.inl he
      · right
        rw [he]
        exact List.mem_cons_self x xs
    · exact Or.inr (List.mem_cons_of_mem x h)

/-- Predicate: v is the greatest element of the list l. -/
def IsMaxOf (v : ℚ) (l : List ℚ) : Prop := v ∈ l ∧ ∀ u ∈ l, u ≤ v

/-- Predicate: v is the least element of the list l. -/
def IsMinOf (v : ℚ) (l : List ℚ) : Prop := v ∈ l ∧ ∀ u ∈ l, v ≤ u

lemma pyMax_isMaxOf (l : List ℚ) (h : l ≠ []) : IsMaxOf (pyMax l) l := by
  match l with
  | [] => exact absurd rfl h
  | x :: xs =>
    constructor
    · rcases foldl_max_mem xs x with he | he
      · rw [pyMax, he]
        exact List.mem_cons_self x xs
      · exact List.mem_cons_of_mem x he
    · intro u hu
      rcases List.mem_cons.mp hu with h | h
      · subst h
        exact le_foldl_max xs u
      · exact mem_le_foldl_max u h

lemma pyMin_isMinOf (l : List ℚ) (h : l ≠ []) : IsMinOf (pyMin l) l := by
  match l with
  | [] => exact absurd rfl h
  | x :: xs =>
    constructor
    · rcases foldl_min_mem xs x with he | he
      · rw [pyMin, he]
        exact List.mem_cons_self x xs
      · exact List.mem_cons_of_mem x he
    · intro u hu
      rcases List.mem_cons.mp hu with h | h
      · subst h
        exact foldl_min_le_init xs u
      · exact foldl_min_le_mem u h

lemma isMaxOf_congr {v : ℚ} {l l2 : List ℚ}
    (hmem : ∀ x, x ∈ l ↔ x ∈ l2) (h : IsMaxOf v l) : IsMaxOf v l2 :=
  ⟨(hmem v).mp h.1, fun u hu => h.2 u ((hmem u).mpr hu)⟩

lemma isMinOf_congr {v : ℚ} {l l2 : List ℚ}
    (hmem : ∀ x, x ∈ l ↔ x ∈ l2) (h : IsMinOf v l) : IsMinOf v l2 :=
  ⟨(hmem v).mp h.1, fun u hu => h.2 u ((hmem u).mpr hu)⟩

lemma append_singleton_mem_iff (f : MaskProduct → ℚ) (a : ℚ)
    (masks : List MaskProduct) :
    ∀ x, x ∈ masks.map f ++ [a] ↔ x ∈ a :: masks.map f := by
  intro x
  simp only [List.mem_append, List.mem_singleton, List.mem_cons]
  tauto

/-- C2: the shared bounding box computed by mask_product is the intersection
of extents: xmin is the greatest of the x-minimums of the target and of
every mask, xmax the least of the x-maximums, and likewise in y. -/
theorem shared_bbox_is_intersection (algo : AlgoProduct)
    (masks : List MaskProduct) (hne : masks ≠ []) :
    IsMaxOf (sharedBBox algo masks).xmin
      (pyMin algo.xs :: masks.map (fun m => pyMin m.xs)) ∧
    IsMinOf (sharedBBox algo masks).xmax
      (pyMax algo.xs :: masks.map (fun m => pyMax m.xs)) ∧
    IsMaxOf (sharedBBox algo masks).ymin
      (pyMin algo.ys :: masks.map (fun m => pyMin m.ys)) ∧
    IsMinOf (sharedBBox algo masks).ymax
      (pyMax algo.ys :: masks.map (fun m => pyMax m.ys)) := by
  have hne2 : ∀ (f : MaskProduct → ℚ) (a : ℚ),
      masks.map f ++ [a] ≠ [] := by
    intro f a h
    simpa using congrArg List.length h
  refine ⟨?_, ?_, ?_, ?_⟩
  · exact isMaxOf_congr (append_singleton_mem_iff _ _ masks)
      (pyMax_isMaxOf _ (hne2 _ _))
  · exact isMinOf_congr (append_singleton_mem_iff _ _ masks)
      (pyMin_isMinOf _ (hne2 _ _))
  · exact isMaxOf_congr (append_singleton_mem_iff _ _ masks)
      (pyMax_isMaxOf _ (hne2 _ _))
  · exact isMinOf_congr (append_singleton_mem_iff _ _ masks)
      (pyMin_isMinOf _ (hne2 _ _))

/-- Target product of the spec scenario for C2: extent x in [0,100],
y in [0,100]. -/
def wAlgo : AlgoProduct where
  xs := [0, 100]
  ys := [0, 100]
  vals := fun _ => some 1

/-- Mask product of the spec scenario for C2: extent x in [20,120],
y in [-10,90]. -/
def wMaskProd : MaskProduct where
  xs := [20, 120]
  ys := [-10, 90]
  mvals := fun _ => 1

/-- Witness for C2: the spec scenario; the shared bounding box is the
intersection x in [20,100], y in [0,90]. -/
theorem shared_bbox_is_intersection_witness :
    IsMaxOf (sharedBBox wAlgo [wMaskProd]).xmin
      (pyMin wAlgo.xs :: [wMaskProd].map (fun m => pyMin m.xs)) ∧
    sharedBBox wAlgo [wMaskProd] = ⟨20, 100, 0, 90⟩ := by
  refine ⟨(shared_bbox_is_intersection wAlgo [wMaskProd] (by simp)).1, ?_⟩
  simp [sharedBBox, wAlgo, wMaskProd, pyMin, pyMax]
  norm_num

/-- Masking pipeline of mask_product after the deepcopy decision
(products/l3.py lines 220-253): compute the shared bounding box, clip the
target coordinates to it by coordinate-based selection, and set the target
values to NaN wherever the keep field is false. Mask layers and the target
are assumed to sit on one common grid (the explicit assumption of the code),
so the positional alignment of the clipped numpy arrays coincides with
coordinate alignment and arrays are embedded as coordinate-indexed
functions. -/
def maskProductRun (algo : AlgoProduct)
    (masks : List (MaskProduct × MaskType)) : AlgoProduct :=
  let bbox := sharedBBox algo (masks.map Prod.fst)
  let layers : List ((ℚ × ℚ → ℚ) × MaskType) :=
    masks.map (fun mt => (mt.1.mvals, mt.2))
  { xs := algo.xs.filter (fun x => decide (bbox.xmin ≤ x) && decide (x ≤ bbox.xmax)),
    ys := algo.ys.filter (fun y => decide (bbox.ymin ≤ y) && decide (y ≤ bbox.ymax)),
    vals := applyKeep (keepField layers) algo.vals }

/-- State-passing embedding of mask_product (products/l3.py lines 194-267).
The returned pair is (state of the l3_algo argument after the call, return
value). With inplace left False the code works on a deepcopy, so the
argument is unchanged and the masked copy is returned; with inplace True the
argument itself is mutated and None is returned. -/
def maskProduct (algo : AlgoProduct) (masks : List (MaskProduct × MaskType))
    (inplace : Bool) : AlgoProduct × Option AlgoProduct :=
  if inplace then
    (maskProductRun algo masks, none)
  else
    (algo, some (maskProductRun algo masks))

/-- C10: with inplace at its default False the target product passed to
mask_product is left unchanged and a new masked product is returned; with
inplace True the target is mutated into the masked product and None is
returned. -/
theorem mask_product_inplace_semantics (algo : AlgoProduct)
    (masks : List (MaskProduct × MaskType)) :
    maskProduct algo masks false = (algo, some (maskProductRun algo masks)) ∧
    maskProduct algo masks true = (maskProductRun algo masks, none) :=
  ⟨rfl, rfl⟩

/-- C9: masking with a single Include mask that is all-true (value 1
everywhere) leaves every non-NaN target value inside the shared bounding box
unchanged. -/
theorem all_true_include_mask_preserves (algo : AlgoProduct)
    (m : MaskProduct) (p : ℚ × ℚ) (q : ℚ)
    (hall : ∀ r, m.mvals r = 1)
    (hx1 : (sharedBBox algo [m]).xmin ≤ p.1)
    (hx2 : p.1 ≤ (sharedBBox algo [m]).xmax)
    (hy1 : (sharedBBox algo [m]).ymin ≤ p.2)
    (hy2 : p.2 ≤ (sharedBBox algo [m]).ymax)
    (hq : algo.vals p = some q) :
    (maskProductRun algo [(m, MaskType.IN)]).vals p = some q := by
  have hkeep : keepField [(m.mvals, MaskType.IN)] p = true := by
    simp [keepField, maskInSum, List.filter, hall p]
    exact Or.inl rfl
  simp only [maskProductRun, List.map_cons, List.map_nil]
  rw [applyKeep, hkeep]
  simpa using hq

/-- Witness for C9: a concrete all-true 2-point mask and target; the value
some 1 at coordinate (50, 50) survives masking. -/
theorem all_true_include_mask_preserves_witness :
    (maskProductRun wAlgo [(wMaskProd, MaskType.IN)]).vals (50, 50) = some 1 := by
  refine all_true_include_mask_preserves wAlgo wMaskProd (50, 50) 1
    (fun r => rfl) ?_ ?_ ?_ ?_ rfl
  · show (sharedBBox wAlgo [wMaskProd]).xmin ≤ 50
    norm_num [sharedBBox, wAlgo, wMaskProd, pyMin, pyMax]
  · show (50 : ℚ) ≤ (sharedBBox wAlgo [wMaskProd]).xmax
    norm_num [sharedBBox, wAlgo, wMaskProd, pyMin, pyMax]
  · show (sharedBBox wAlgo [wMaskProd]).ymin ≤ 50
    norm_num [sharedBBox, wAlgo, wMaskProd, pyMin, pyMax]
  · show (50 : ℚ) ≤ (sharedBBox wAlgo [wMaskProd]).ymax
    norm_num [sharedBBox, wAlgo, wMaskProd, pyMin, pyMax]

/-- Relevant state of an open rasterio DatasetReader for a north-up raster:
top-left corner (ox, oy), square pixel size res, and pixel dimensions. -/
structure Raster where
  ox : ℚ
  oy : ℚ
  res : ℚ
  height : ℕ
  width : ℕ
  deriving DecidableEq, Repr

/-- DatasetReader.index(x, y): the (row, col) pixel containing the projected
point, obtained by flooring through the inverse affine transform. -/
def rasterIndex (r : Raster) (x y : ℚ) : ℤ × ℤ :=
  (⌊(r.oy - y) / r.res⌋, ⌊(x - r.ox) / r.res⌋)

/-- Bounds of a shapely geometry: (x_min, y_min, x_max, y_max). -/
structure GeomBounds where
  xmin : ℚ
  ymin : ℚ
  xmax : ℚ
  ymax : ℚ
  deriving DecidableEq, Repr

/-- get_ij_bbox (utils/readers.py lines 27-42): converts the geometry bounds
to a pixel rectangle and clamps it to [0, height-1] x [0, width-1]; it is a
total function and raises nothing, whatever the overlap. Returns
[row_start, col_start, row_stop, col_stop]. -/
def get_ij_bbox (subdataset : Raster) (geom : GeomBounds) : List ℤ :=
  let rowStart := max 0 (rasterIndex subdataset geom.xmin geom.ymax).1
  let colStart := max 0 (rasterIndex subdataset geom.xmin geom.ymax).2
  let rowStop := min ((subdataset.height : ℤ) - 1)
    (rasterIndex subdataset geom.xmax geom.ymin).1
  let colStop := min ((subdataset.width : ℤ) - 1)
    (rasterIndex subdataset geom.xmax geom.ymin).2
  [rowStart, colStart, rowStop, colStop]

/-- Window-resolution step of S2ESAReader._extract_first_band
(readers/S2_ESA.py lines 193-213): with an ROI it calls get_ij_bbox and
proceeds to read; without one it reads the full raster. No intersection test
is performed and GeometryError is never raised (S2_ESA.py does not even name
that error class); the same holds for the S2_THEIA and L8_USGS readers built
on get_ij_bbox. -/
def s2esaResolveWindow (subdataset : Raster) (roi : Option GeomBounds) :
    Except SisppeoError (List ℤ) :=
  match roi with
  | some geom => Except.ok (get_ij_bbox subdataset geom)
  | none => Except.ok [0, 0, (subdataset.height : ℤ) - 1,
      (subdataset.width : ℤ) - 1]

/-- C2RCCReader._extract_ROI (readers/C2RCC.py lines 156-172): xy_bbox is the
product bounding box (x0, y0, x1, y1) with y0 the top and y1 the bottom
coordinate; the reprojected ROI bounds are checked for intersection first and
GeometryError is raised when they lie outside; the pixel resolution 20 is
hard-coded in the source. -/
def c2rccExtractROI (x0 y0 x1 y1 : ℚ) (nx ny : ℕ)
    (roi : Option GeomBounds) : Except SisppeoError (ℤ × ℤ × ℤ × ℤ) :=
  match roi with
  | none => Except.ok (0, 0, (ny : ℤ) - 1, (nx : ℤ) - 1)
  | some g =>
    if (g.xmax < x0 ∨ g.ymin > y0) ∨ (g.xmin > x1 ∨ g.ymax < y1) then
      Except.error (SisppeoError.geometryError
        "Wanted ROI is outside the input product")
    else
      let rowStart : ℤ := if g.ymax > y0 then 0 else ⌊(y0 - g.ymax) / 20⌋
      let colStart : ℤ := if g.xmin < x0 then 0 else ⌊(g.xmin - x0) / 20⌋
      let rowStop : ℤ := if g.ymin < y1 then (ny : ℤ) - 1 else ⌊(y0 - g.ymin) / 20⌋
      let colStop : ℤ := if g.xmax > x1 then (nx : ℤ) - 1 else ⌊(g.xmax - x0) / 20⌋
      Except.ok (rowStart, colStart, rowStop, colStop)

/-- Overlap of the closed rectangle [x0, x1] x [y1, y0] (a product extent,
y0 the top) with the rectangle [xmin, xmax] x [ymin, ymax] (ROI bounds). -/
def rectOverlap (x0 y0 x1 y1 : ℚ) (g : GeomBounds) : Prop :=
  x0 ≤ g.xmax ∧ g.xmin ≤ x1 ∧ y1 ≤ g.ymax ∧ g.ymin ≤ y0

/-- C3 counterexample: the claim that every reader raises GeometryError on a
disjoint ROI is false: on a 10x10 raster with extent x in [0,100],
y in [0,100] and ROI bounds x in [200,300], y in [40,60] (disjoint), the
S2_ESA windowing step returns a clamped pixel window instead of an error. -/
theorem s2esa_no_geometry_error_on_disjoint_roi :
    ¬ rectOverlap 0 100 100 0 ⟨200, 40, 300, 60⟩ ∧
    s2esaResolveWindow ⟨0, 100, 10, 10, 10⟩ (some ⟨200, 40, 300, 60⟩)
      = Except.ok [4, 20, 6, 9] := by
  constructor
  · intro h
    have := h.2.1
    norm_num at this
  · show Except.ok (get_ij_bbox ⟨0, 100, 10, 10, 10⟩ ⟨200, 40, 300, 60⟩) = _
    have h1 : (⌊((100 : ℚ) - 60) / 10⌋ : ℤ) = 4 := by norm_num
    have h2 : (⌊((200 : ℚ) - 0) / 10⌋ : ℤ) = 20 := by norm_num
    have h3 : (⌊((100 : ℚ) - 40) / 10⌋ : ℤ) = 6 := by norm_num
    have h4 : (⌊((300 : ℚ) - 0) / 10⌋ : ℤ) = 30 := by norm_num
    simp only [get_ij_bbox, rasterIndex, h1, h2, h3, h4]
    norm_num

/-- C3 amended: the intersection check exists only in the C2RCC (and GRS)
readers: whenever the reprojected ROI bounding box does not overlap the
product extent, C2RCCReader._extract_ROI raises GeometryError; the readers
built on get_ij_bbox (S2_ESA, S2_THEIA, L8_USGS families) instead clamp the
pixel window and raise nothing. -/
theorem c2rcc_disjoint_roi_raises (x0 y0 x1 y1 : ℚ) (nx ny : ℕ)
    (g : GeomBounds) (hdisj : ¬ rectOverlap x0 y0 x1 y1 g) :
    c2rccExtractROI x0 y0 x1 y1 nx ny (some g)
      = Except.error (SisppeoError.geometryError
          "Wanted ROI is outside the input product") := by
  rw [c2rccExtractROI, if_pos]
  rw [rectOverlap] at hdisj
  push_neg at hdisj
  by_cases h1 : g.xmax < x0
  · exact Or.inl (Or.inl h1)
  by_cases h2 : x1 < g.xmin
  · exact Or.inr (Or.inl h2)
  by_cases h3 : g.ymax < y1
  · exact Or.inr (Or.inr h3)
  push_neg at h1 h2 h3
  exact Or.inl (Or.inr (hdisj h1 h2 h3))

/-- Witness for C3 amended: a product with extent x in [0,100], y in [0,100]
and an ROI entirely to its right raises GeometryError in the C2RCC reader. -/
theorem c2rcc_disjoint_roi_raises_witness :
    c2rccExtractROI 0 100 100 0 10 10 (some ⟨200, 40, 300, 60⟩)
      = Except.error (SisppeoError.geometryError
          "Wanted ROI is outside the input product") := by
  refine c2rcc_disjoint_roi_raises 0 100 100 0 10 10 ⟨200, 40, 300, 60⟩ ?_
  intro h
  have := h.2.1
  norm_num at this

/-- Authorized output resolutions of the S2_ESA readers
(readers/S2_ESA.py line 74): the tuple (None, 10, 20, 60). -/
def authorizedResS2ESA : List (Option ℤ) := [none, some 10, some 20, some 60]

/-- Authorized output resolutions of the S2_THEIA reader
(readers/S2_THEIA.py line 89): the tuple (None, 10, 20). -/
def authorizedResS2THEIA : List (Option ℤ) := [none, some 10, some 20]

/-- Resolution validation of S2ESAReader.__init__ (readers/S2_ESA.py lines
74-75): raise InputError when out_resolution is not in (None, 10, 20, 60). -/
def s2esaInitCheck (outResolution : Option ℤ) : Except SisppeoError Unit :=
  if authorizedResS2ESA.contains outResolution then Except.ok ()
  else Except.error (SisppeoError.inputError
    "\"out_resolution\" must be in (10, 20, 60)")

/-- Resolution and band validation of S2THEIAReader.__init__
(readers/S2_THEIA.py lines 89-92): the resolution check comes first. -/
def s2theiaInitCheck (outResolution : Option ℤ) (theiaBands : String) :
    Except SisppeoError Unit :=
  if ¬ authorizedResS2THEIA.contains outResolution then
    Except.error (SisppeoError.inputError
      "\"out_resolution\" must be in (10, 20)")
  else if ¬ (["FRE", "SRE"].contains theiaBands) then
    Except.error (SisppeoError.inputError
      "\"theia_bands\" must be either \"SRE\" or \"FRE\"")
  else Except.ok ()

/-- Substring test, embedding the Python expression sub in s. -/
def strContainsSub (s sub : String) : Bool :=
  listHasSub sub.toList s.toList
where
  listLeadMatch : List Char → List Char → Bool
    | [], _ => true
    | _ :: _, [] => false
    | p :: ps, c :: cs => p == c && listLeadMatch ps cs
  listHasSub : List Char → List Char → Bool
    | pat, [] => pat.isEmpty
    | pat, c :: cs => listLeadMatch pat (c :: cs) || listHasSub pat cs

/-- ProductBuilder._set_resolution (builders.py lines 150-203): validates
out_resolution and processing_resolution against the authorized set of the
product family selected by the product_type string, raising InputError for
a value outside the set, and reconciles the two resolutions; for any other
product family the values pass through unchanged. -/
def setResolution (productType : String)
    (outResolution processingResolution : Option ℤ) :
    Except SisppeoError (Option ℤ × Option ℤ) :=
  if strContainsSub productType "S2_ESA" then
    if ¬ authorizedResS2ESA.contains outResolution then
      Except.error (SisppeoError.inputError
        "\"out_resolution\" must either be set to None, 10, 20 or 60.")
    else if ¬ authorizedResS2ESA.contains processingResolution then
      Except.error (SisppeoError.inputError
        "\"processing_resolution\" must either be set to None, 10, 20 or 60.")
    else
      match outResolution with
      | none => Except.ok (processingResolution, processingResolution)
      | some o =>
        match processingResolution with
        | none => Except.ok (some o, some o)
        | some p =>
          if p < o then Except.ok (some o, some o)
          else Except.ok (some o, some p)
  else if productType == "S2_THEIA" then
    if ¬ authorizedResS2THEIA.contains outResolution then
      Except.error (SisppeoError.inputError
        "\"out_resolution\" must either be set to None, 10 or 20.")
    else if ¬ authorizedResS2THEIA.contains processingResolution then
      Except.error (SisppeoError.inputError
        "\"processing_resolution\" must either be set to None, 10 or 20.")
    else
      match outResolution with
      | none => Except.ok (processingResolution, processingResolution)
      | some o =>
        match processingResolution with
        | none => Except.ok (some o, some o)
        | some p =>
          if p < o then Except.ok (some o, some o)
          else Except.ok (some o, some p)
  else Except.ok (outResolution, processingResolution)

lemma not_contains_of_not_mem {r : Option ℤ} {l : List (Option ℤ)}
    (h : r ∉ l) : l.contains r = false := by
  simpa using h

/-- C7: an out_resolution outside the authorized set of a format family
makes both the reader constructor and the builder raise InputError: outside
{None, 10, 20, 60} for the S2_ESA family and outside {None, 10, 20} for the
S2_THEIA family. -/
theorem resolution_check_raises_input_error (r pr : Option ℤ)
    (productType : String) (bands : String) :
    (r ∉ authorizedResS2ESA →
      s2esaInitCheck r = Except.error (SisppeoError.inputError
        "\"out_resolution\" must be in (10, 20, 60)") ∧
      (strContainsSub productType "S2_ESA" = true →
        setResolution productType r pr = Except.error (SisppeoError.inputError
          "\"out_resolution\" must either be set to None, 10, 20 or 60."))) ∧
    (r ∉ authorizedResS2THEIA →
      s2theiaInitCheck r bands = Except.error (SisppeoError.inputError
        "\"out_resolution\" must be in (10, 20)") ∧
      setResolution "S2_THEIA" r pr = Except.error (SisppeoError.inputError
        "\"out_resolution\" must either be set to None, 10 or 20.")) := by
  constructor
  · intro hr
    constructor
    · simp [s2esaInitCheck, hr]
    · intro hp
      rw [setResolution.eq_def]
      simp [hp, hr]
  · intro hr
    constructor
    · simp [s2theiaInitCheck, hr]
    · rw [setResolution.eq_def]
      rw [show strContainsSub "S2_THEIA" "S2_ESA" = false from rfl]
      simp [hr]

/-- Witness for C7: out_resolution 30 is outside both authorized sets; the
reader constructors and the builder all raise InputError. -/
theorem resolution_check_raises_input_error_witness :
    s2esaInitCheck (some 30) = Except.error (SisppeoError.inputError
      "\"out_resolution\" must be in (10, 20, 60)") ∧
    setResolution "S2_ESA_L2A" (some 30) none
      = Except.error (SisppeoError.inputError
        "\"out_resolution\" must either be set to None, 10, 20 or 60.") ∧
    s2theiaInitCheck (some 30) "FRE" = Except.error (SisppeoError.inputError
      "\"out_resolution\" must be in (10, 20)") ∧
    setResolution "S2_THEIA" (some 30) none
      = Except.error (SisppeoError.inputError
        "\"out_resolution\" must either be set to None, 10 or 20.") := by
  have h := resolution_check_raises_input_error (some 30) none "S2_ESA_L2A" "FRE"
  have hesa := h.1 (by decide)
  have htheia := h.2 (by decide)
  exact ⟨hesa.1, hesa.2 rfl, htheia.1, htheia.2⟩

/-- np.arange(start, stop, step): the arithmetic progression
start + k * step for 0 <= k < ceil((stop - start) / step), empty when the
ceiling is nonpositive. -/
def arange (start stop step : ℚ) : List ℚ :=
  (List.range (⌈(stop - start) / step⌉).toNat).map
    (fun k : ℕ => start + (k : ℚ) * step)

/-- S2ESAReader._compute_x_coords (readers/S2_ESA.py lines 179-183):
np.arange(x0 + out_res / 2, x1 - out_res / 2 + 1, out_res). -/
def computeXCoords (x0 x1 outRes : ℚ) : List ℚ :=
  arange (x0 + outRes / 2) (x1 - outRes / 2 + 1) outRes

/-- S2ESAReader._compute_y_coords (readers/S2_ESA.py lines 185-189):
np.arange(y0 - out_res / 2, y1 + out_res / 2 - 1, -out_res). -/
def computeYCoords (y0 y1 outRes : ℚ) : List ℚ :=
  arange (y0 - outRes / 2) (y1 + outRes / 2 - 1) (-outRes)

lemma ceil_pred_div_eq_div (W r : ℕ) (hr : 0 < r) :
    (⌈(((W : ℚ)) - r + 1) / r⌉).toNat = W / r := by
  have hrq : (0 : ℚ) < r := by exact_mod_cast hr
  have hceil : ⌈(((W : ℚ)) - r + 1) / r⌉ = ((W / r : ℕ) : ℤ) := by
    rw [Int.ceil_eq_iff]
    have hd1 := Nat.div_mul_le_self W r
    have hd3 := Nat.mod_lt W hr
    simp only [Int.cast_natCast]
    constructor
    · rw [lt_div_iff hrq]
      have h1 : ((W / r : ℕ) : ℚ) * r ≤ (W : ℚ) := by exact_mod_cast hd1
      nlinarith [h1]
    · rw [div_le_iff hrq]
      have h2 : ((r : ℚ)) * ((W / r : ℕ) : ℚ) + ((W % r : ℕ) : ℚ) = (W : ℚ) := by
        exact_mod_cast Nat.div_add_mod W r
      have h3 : ((W % r : ℕ) : ℚ) + 1 ≤ (r : ℚ) := by
        exact_mod_cast Nat.succ_le_of_lt hd3
      nlinarith [h2, h3]
  rw [hceil, Int.toNat_natCast]

lemma length_arange (start stop step : ℚ) :
    (arange start stop step).length = (⌈(stop - start) / step⌉).toNat := by
  rw [arange, List.length_map, List.length_range]

lemma get_arange (start stop step : ℚ) (k : ℕ)
    (hk : k < (arange start stop step).length) :
    (arange start stop step).get ⟨k, hk⟩ = start + k * step := by
  simp [arange]

lemma get_computeXCoords (x0 x1 outRes : ℚ) (k : ℕ)
    (hk : k < (computeXCoords x0 x1 outRes).length) :
    (computeXCoords x0 x1 outRes).get ⟨k, hk⟩
      = x0 + outRes / 2 + k * outRes :=
  get_arange (x0 + outRes / 2) (x1 - outRes / 2 + 1) outRes k hk

lemma get_computeYCoords (y0 y1 outRes : ℚ) (k : ℕ)
    (hk : k < (computeYCoords y0 y1 outRes).length) :
    (computeYCoords y0 y1 outRes).get ⟨k, hk⟩
      = y0 - outRes / 2 + k * -outRes :=
  get_arange (y0 - outRes / 2) (y1 + outRes / 2 - 1) (-outRes) k hk

lemma length_computeXCoords (x0 : ℚ) (w inRes outRes : ℕ) (hr : 0 < outRes) :
    (computeXCoords x0 (x0 + w * inRes) outRes).length = w * inRes / outRes := by
  have hrq : ((outRes : ℚ)) ≠ 0 := by
    exact_mod_cast Nat.pos_iff_ne_zero.mp hr
  rw [computeXCoords, length_arange]
  have h : (x0 + (w : ℚ) * inRes - outRes / 2 + 1 - (x0 + outRes / 2)) / outRes
      = (((w * inRes : ℕ) : ℚ) - outRes + 1) / outRes := by
    push_cast
    ring_nf
  rw [h, ceil_pred_div_eq_div _ _ hr]

lemma length_computeYCoords (y0 : ℚ) (h inRes outRes : ℕ) (hr : 0 < outRes) :
    (computeYCoords y0 (y0 - h * inRes) outRes).length = h * inRes / outRes := by
  have hrq : ((outRes : ℚ)) ≠ 0 := by
    exact_mod_cast Nat.pos_iff_ne_zero.mp hr
  rw [computeYCoords, length_arange]
  have hq : (y0 - (h : ℚ) * inRes + outRes / 2 - 1 - (y0 - outRes / 2)) / (-outRes)
      = (((h * inRes : ℕ) : ℚ) - outRes + 1) / outRes := by
    rw [div_eq_div_iff (by simpa using hrq) hrq]
    push_cast
    ring
  rw [hq, ceil_pred_div_eq_div _ _ hr]

/-- C8 counterexample: the claim states y[0] - y[1] == -resolution, but the
y-coordinate array is built descending: for y0 = 100, y1 = 60, resolution 10
the code produces y = [95, 85, 75, 65], so y[0] - y[1] = 10 = +resolution,
not -10. -/
theorem grid_y_diff_not_neg_resolution :
    computeYCoords 100 60 10 = [95, 85, 75, 65] ∧
    (95 : ℚ) - 85 = 10 ∧ (10 : ℚ) ≠ -10 := by
  refine ⟨?_, by norm_num, by norm_num⟩
  have h0 : ((60 : ℚ) + 10 / 2 - 1 - (100 - 10 / 2)) / (-10) = 31 / 10 := by
    norm_num
  have h1 : ⌈(31 : ℚ) / 10⌉ = 4 := by
    refine Int.ceil_eq_iff.mpr ⟨by norm_num, by norm_num⟩
  have h : (⌈((60 : ℚ) + 10 / 2 - 1 - (100 - 10 / 2)) / (-10)⌉).toNat = 4 := by
    rw [h0, h1]
    rfl
  rw [computeYCoords, arange, h]
  simp [List.range_succ]
  norm_num

/-- C8 amended: for the grid built by S2ESAReader over a window of w x h
pixels at native resolution inRes, resampled to outRes, the x array is
ascending from the pixel center x0 + outRes/2 with spacing
x[k+1] - x[k] = outRes, the y array is descending from the pixel center
y0 - outRes/2 with spacing y[k] - y[k+1] = outRes (so y[0] - y[1] equals
+resolution, not -resolution), and the lengths of x and y equal the width
and height of the resampled output array. -/
theorem s2esa_grid_invariants (x0 y0 : ℚ) (w h inRes outRes : ℕ)
    (hr : 0 < outRes) :
    ((computeXCoords x0 (x0 + w * inRes) outRes).length
        = pilDim w inRes outRes) ∧
    ((computeYCoords y0 (y0 - h * inRes) outRes).length
        = pilDim h inRes outRes) ∧
    (∀ k (hk : k + 1 < (computeXCoords x0 (x0 + w * inRes) outRes).length),
      (computeXCoords x0 (x0 + w * inRes) outRes).get ⟨k + 1, hk⟩
        - (computeXCoords x0 (x0 + w * inRes) outRes).get
            ⟨k, Nat.lt_of_succ_lt hk⟩ = outRes) ∧
    (∀ k (hk : k + 1 < (computeYCoords y0 (y0 - h * inRes) outRes).length),
      (computeYCoords y0 (y0 - h * inRes) outRes).get ⟨k, Nat.lt_of_succ_lt hk⟩
        - (computeYCoords y0 (y0 - h * inRes) outRes).get ⟨k + 1, hk⟩
        = outRes) ∧
    (∀ hk : 0 < (computeXCoords x0 (x0 + w * inRes) outRes).length,
      (computeXCoords x0 (x0 + w * inRes) outRes).get ⟨0, hk⟩
        = x0 + outRes / 2) ∧
    (∀ hk : 0 < (computeYCoords y0 (y0 - h * inRes) outRes).length,
      (computeYCoords y0 (y0 - h * inRes) outRes).get ⟨0, hk⟩
        = y0 - outRes / 2) := by
  refine ⟨?_, ?_, ?_, ?_, ?_, ?_⟩
  · rw [length_computeXCoords x0 w inRes outRes hr, pilDim_eq_div]
  · rw [length_computeYCoords y0 h inRes outRes hr, pilDim_eq_div]
  · intro k hk
    rw [get_computeXCoords, get_computeXCoords]
    push_cast
    ring
  · intro k hk
    rw [get_computeYCoords, get_computeYCoords]
    push_cast
    ring
  · intro hk
    rw [get_computeXCoords]
    norm_num
  · intro hk
    rw [get_computeYCoords]
    norm_num

/-- Witness for C8 amended: a 4x4 window at 10m with output resolution 10m,
origin (0, 100): both coordinate arrays have the resampled length 4, start
at the pixel centers 5 and 95, and have spacing 10. -/
theorem s2esa_grid_invariants_witness :
    ((computeXCoords 0 (0 + ((4 : ℕ) : ℚ) * ((10 : ℕ) : ℚ)) ((10 : ℕ) : ℚ)).length
        = pilDim 4 10 10) ∧
    ((computeYCoords 100 (100 - ((4 : ℕ) : ℚ) * ((10 : ℕ) : ℚ)) ((10 : ℕ) : ℚ)).length
        = pilDim 4 10 10) ∧
    pilDim 4 10 10 = 4 := by
  have hmain := s2esa_grid_invariants 0 100 4 4 10 10 (by norm_num)
  refine ⟨hmain.1, hmain.2.1, ?_⟩
  rw [pilDim_eq_div]

end Sisppeo
